import Mathlib

/-!
Verification of the `examples/tf/ReLU Layers.ipynb` notebook of the
cvxpylayers repository.

The notebook embeds the convex program

  minimize   sum of squares of (z - Wtilde x - b)
  subject to z >= 0,  Wtilde = W

with variables (z, Wtilde) and parameters (W, b, x) into a Keras layer
(`ReluLayer`), builds a small sequential model out of two such layers and a
dense layer, and runs 25 Adam steps on synthetic data, printing one loss per
step.  We embed the program, the layer's `call` dispatch, the training-loop
structure, the recorded loss output and the global-RNG dataflow of the
notebook, and prove the frozen claims about them.
-/

/-- Matrix–vector product `(W x) i = ∑ j, W i j * x j` (rational entries stand
for the float64 tensors of the notebook). -/
def mv {m n : ℕ} (W : Fin n → Fin m → ℚ) (x : Fin m → ℚ) (i : Fin n) : ℚ :=
  ∑ j, W i j * x j

/-- Objective of the notebook's convex program at the variable pair
`p = (z, Wtilde)`: `cp.sum_squares(z - Wtilde @ x - b)`. -/
def objective {m n : ℕ} (b : Fin n → ℚ) (x : Fin m → ℚ)
    (p : (Fin n → ℚ) × (Fin n → Fin m → ℚ)) : ℚ :=
  ∑ i, (p.1 i - (mv p.2 x i + b i)) ^ 2

/-- Constraint set of the program: `z >= 0` and `Wtilde == W`. -/
def Feasible {m n : ℕ} (W : Fin n → Fin m → ℚ)
    (p : (Fin n → ℚ) × (Fin n → Fin m → ℚ)) : Prop :=
  (∀ i, 0 ≤ p.1 i) ∧ p.2 = W

/-- The pair `p` is an optimal point of the program instantiated at parameters
`(W, b, x)`: feasible, and its objective is at most that of every feasible
point. -/
def IsOptimal {m n : ℕ} (W : Fin n → Fin m → ℚ) (b : Fin n → ℚ)
    (x : Fin m → ℚ) (p : (Fin n → ℚ) × (Fin n → Fin m → ℚ)) : Prop :=
  Feasible W p ∧ ∀ q, Feasible W q → objective b x p ≤ objective b x q

/-- The elementwise nonnegative part of `W x + b`, the ReLU value the
notebook's markdown ascribes to the layer. -/
def reluSol {m n : ℕ} (W : Fin n → Fin m → ℚ) (b : Fin n → ℚ)
    (x : Fin m → ℚ) (i : Fin n) : ℚ :=
  max (mv W x i + b i) 0

/-- Modelled from the spec: the `CvxpyLayer` adapter
(`cvxpylayers.tensorflow.CvxpyLayer`, code of this repository that is not
among the sources at hand) returns the optimal values of the declared
variables of the bound convex program at the supplied parameter values
(spec section 4.1).  For the ReLU template the optimal `z` is
`max(W x + b, 0)`; lemma `isOptimal_iff` below proves this value is the unique
optimum of the embedded program, so the definition is forced. -/
def cvxpyLayerSolve {m n : ℕ} (W : Fin n → Fin m → ℚ) (b : Fin n → ℚ)
    (x : Fin m → ℚ) : Fin n → ℚ :=
  reluSol W b x

/-- Modelled from the spec: a batched invocation of the adapter applies the
solve independently per batch element, one parameter set per element
(spec section 4.1). -/
def cvxpyLayerBatched {m n B : ℕ} (Ws : Fin B → Fin n → Fin m → ℚ)
    (bs : Fin B → Fin n → ℚ) (xs : Fin B → Fin m → ℚ) : Fin B → Fin n → ℚ :=
  fun k => cvxpyLayerSolve (Ws k) (bs k) (xs k)

/-- The list `[a for _ in tf.range(B)]`: `B` copies of `a`. -/
def replicateList {α : Type} (B : ℕ) (a : α) : List α :=
  (List.range B).map (fun _ => a)

/-- The result of `tf.stack` on the replicated list: slice `k` is element `k` of the list. -/
def stackRep {α : Type} (B : ℕ) (a : α) (k : Fin B) : α :=
  (replicateList B a).get ⟨k.1, by simp [replicateList]⟩

/-- A TensorFlow tensor fed to `ReluLayer.call`: either a single feature
vector (rank 1) or a batch of feature vectors (rank 2, leading batch
dimension). -/
inductive TFTensor (m : ℕ) : Type where
  | rank1 : (Fin m → ℚ) → TFTensor m
  | rank2 : (B : ℕ) → (Fin B → Fin m → ℚ) → TFTensor m

/-- The shape of a tensor of feature dimension `m`. -/
def TFTensor.shape {m : ℕ} : TFTensor m → List ℕ
  | .rank1 _ => [m]
  | .rank2 B _ => [B, m]

/-- A `ReluLayer(input_dim, output_dim)` instance: its trainable weight
`self.W` (shape `(output_dim, input_dim)`) and bias `self.b`
(shape `(output_dim,)`). -/
structure ReluLayer (m n : ℕ) : Type where
  W : Fin n → Fin m → ℚ
  b : Fin n → ℚ

/-- The attribute names `ReluLayer.__init__` assigns on the object:
`self.W`, `self.b` and `self.cvxpy_layer`.  No attribute named `layer` is
ever assigned. -/
def initAttrs : List String := ["W", "b", "cvxpy_layer"]

/-- The Python AttributeError message raised when an unassigned attribute is
read. -/
def attrErr (name : String) : String :=
  "AttributeError: ReluLayer object has no attribute " ++ name

/-- Batched output of the layer: the adapter applied to the stacked weight,
stacked bias, and the input batch, as in the rank-2 branch of `call`. -/
def batchOutput {m n : ℕ} (L : ReluLayer m n) (B : ℕ)
    (X : Fin B → Fin m → ℚ) : Fin B → Fin n → ℚ :=
  cvxpyLayerBatched (stackRep B L.W) (stackRep B L.b) X

/-- The method `ReluLayer.call`: rank-2 inputs take the batched path through
`self.cvxpy_layer` with `W` and `b` stacked `B` times; rank-1 inputs take the
branch `return self.layer(self.W, self.b, x)[0]`, whose attribute read is
resolved against the names assigned in `__init__`. -/
def ReluLayer.call {m n : ℕ} (L : ReluLayer m n) :
    TFTensor m → Except String (TFTensor n)
  | .rank2 B X =>
      if "cvxpy_layer" ∈ initAttrs then
        .ok (.rank2 B (batchOutput L B X))
      else
        .error (attrErr "cvxpy_layer")
  | .rank1 x =>
      if "layer" ∈ initAttrs then
        .ok (.rank1 (cvxpyLayerSolve L.W L.b x))
      else
        .error (attrErr "layer")

/-- The method `call` with the layer state threaded explicitly: the body of the source's
`call` contains no assignment to `self`, so both branches return the state
they received. -/
def ReluLayer.callSt {m n : ℕ} (L : ReluLayer m n) (t : TFTensor m) :
    ReluLayer m n × Except String (TFTensor n) :=
  match t with
  | .rank1 x => (L, L.call (.rank1 x))
  | .rank2 B X => (L, L.call (.rank2 B X))

/-- Number of iterations of the notebook's training loop:
`for _ in range(25)`. -/
def numIters : ℕ := 25

/-- The training loop: `k` iterations of an arbitrary step (compute loss,
print it, take gradients, apply the optimizer update), collecting the printed
loss of each iteration in order.  The iteration count is fixed up front; no
value the step produces can shorten the loop. -/
def runLoop {σ : Type} (step : σ → σ × ℚ) : ℕ → σ → σ × List ℚ
  | 0, s => (s, [])
  | k + 1, s =>
      let r := step s
      let rest := runLoop step k r.1
      (rest.1, r.2 :: rest.2)

/-- The losses printed by a full run of the training loop, one per
iteration. -/
def printedLosses {σ : Type} (step : σ → σ × ℚ) (s : σ) : List ℚ :=
  (runLoop step numIters s).2

/-- The value `X.shape[0]`: the number of rows of the synthetic data matrix
`X = tf.random.normal((300, 20))`. -/
def numRows : ℕ := 300

/-- The quantity `tf.math.reduce_sum((Y - P)**2)`: the sum of squared entries of the
residual between targets `Y` and predictions `P`. -/
def reduceSumSq (N M : ℕ) (Y P : Fin N → Fin M → ℚ) : ℚ :=
  ∑ i, ∑ j, (Y i j - P i j) ^ 2

/-- The loss of the source's training loop:
`loss = (1 / X.shape[0]) * tf.math.reduce_sum((Y - model(X))**2)`. -/
def lossValue (N M : ℕ) (Y P : Fin N → Fin M → ℚ) : ℚ :=
  (1 / (N : ℚ)) * reduceSumSq N M Y P

/-- Stated from the claim's words, for comparison with `lossValue`: the
mean-squared error, the sum over all entries of the squared residual divided
by the number of data rows. -/
def meanSquaredError (N M : ℕ) (Y P : Fin N → Fin M → ℚ) : ℚ :=
  reduceSumSq N M Y P / (N : ℚ)

/-- The 25 loss values recorded in the notebook's stored output cell, in
print order (exact decimal literals of the recorded text). -/
def recordedLosses : List ℚ :=
  [1.1182059444179566, 1.1135983945033263, 1.1057307058385368,
   1.096769654269908, 1.084459023932493, 1.0690279563783676,
   1.0512619022795688, 1.0322302881090637, 1.0125819721396856,
   0.9913663215521406, 0.9653676807090706, 0.9346387377331861,
   0.901583417900799, 0.8696330587760338, 0.8358727832552605,
   0.8012632687553815, 0.7656949960892767, 0.732059435220954,
   0.7007173654028725, 0.6717739637641655, 0.6479549948680946,
   0.6260994111911655, 0.6061758074104243, 0.5910289888009993,
   0.5749367021103264]

/-- State of TensorFlow's global random stream: the seed installed by
`tf.random.set_seed` plus the position of the next draw.  In TF2 eager mode
every seedless random op after `set_seed(s)` returns a value determined by
`s` and the op's position in the program order. -/
structure RNGState : Type where
  seed : ℕ
  pos : ℕ

/-- The call `tf.random.set_seed s`: install seed `s` and rewind the stream. -/
def setSeed (s : ℕ) : RNGState := ⟨s, 0⟩

/-- The value a seedless `tf.random.normal` draws in state `st`, for a stream
function `g` mapping (seed, position) to the drawn tensor (abstracted to one
rational sample per tensor). -/
def drawVal (g : ℕ → ℕ → ℚ) (st : RNGState) : ℚ := g st.seed st.pos

/-- Advance the global stream past one draw. -/
def drawNext (st : RNGState) : RNGState := ⟨st.seed, st.pos + 1⟩

/-- The tensors produced by the notebook's data cell: the four ReluLayer
initializations and the dense-kernel initialization drawn during model
construction, then the synthetic data `X` and `Y`. -/
structure CellRun : Type where
  W1 : ℚ
  b1 : ℚ
  W2 : ℚ
  b2 : ℚ
  denseK : ℚ
  X : ℚ
  Y : ℚ

/-- The notebook cell `tf.random.set_seed(0); model = ...; X = ...; Y = ...`
run with seed `s` over stream `g`: model construction draws `W1, b1`
(first ReluLayer), `W2, b2` (second ReluLayer) and the dense kernel from the
global stream, and then `X` and `Y` are drawn from the same stream.  The
order of the draws is the source's statement order; the dense layer is
modelled as consuming one draw. -/
def runCell (g : ℕ → ℕ → ℚ) (s : ℕ) : CellRun :=
  let st0 := setSeed s
  let st1 := drawNext st0
  let st2 := drawNext st1
  let st3 := drawNext st2
  let st4 := drawNext st3
  let st5 := drawNext st4
  let st6 := drawNext st5
  { W1 := drawVal g st0
    b1 := drawVal g st1
    W2 := drawVal g st2
    b2 := drawVal g st3
    denseK := drawVal g st4
    X := drawVal g st5
    Y := drawVal g st6 }

/-- A concrete stream used to exhibit seed dependence. -/
def gTest (s p : ℕ) : ℚ := ((s * 100 + p : ℕ) : ℚ)

/-! ### Helper lemmas -/

lemma feasible_iff {m n : ℕ} (W : Fin n → Fin m → ℚ)
    (p : (Fin n → ℚ) × (Fin n → Fin m → ℚ)) :
    Feasible W p ↔ (∀ i, 0 ≤ p.1 i) ∧ p.2 = W := Iff.rfl

lemma isOptimal_def {m n : ℕ} (W : Fin n → Fin m → ℚ) (b : Fin n → ℚ)
    (x : Fin m → ℚ) (p : (Fin n → ℚ) × (Fin n → Fin m → ℚ)) :
    IsOptimal W b x p ↔
      Feasible W p ∧ ∀ q, Feasible W q → objective b x p ≤ objective b x q :=
  Iff.rfl

lemma relu_term_le (y z : ℚ) (hz : 0 ≤ z) :
    (max y 0 - y) ^ 2 ≤ (z - y) ^ 2 := by
  rcases le_total 0 y with hy | hy
  · rw [max_eq_left hy]
    simpa using sq_nonneg (z - y)
  · rw [max_eq_right hy]
    nlinarith [mul_nonneg hz (by linarith : (0 : ℚ) ≤ z - 2 * y)]

lemma relu_term_eq (y z : ℚ) (hz : 0 ≤ z)
    (h : (z - y) ^ 2 = (max y 0 - y) ^ 2) : z = max y 0 := by
  rcases le_total 0 y with hy | hy
  · rw [max_eq_left hy] at h ⊢
    have hq : (z - y) * (z - y) = 0 := by linear_combination h
    have := mul_self_eq_zero.mp hq
    linarith
  · rw [max_eq_right hy] at h ⊢
    have hq : z * (z - 2 * y) = 0 := by linear_combination h
    rcases mul_eq_zero.mp hq with h0 | h0
    · exact h0
    · linarith

lemma feasible_relu {m n : ℕ} (W : Fin n → Fin m → ℚ) (b : Fin n → ℚ)
    (x : Fin m → ℚ) : Feasible W (reluSol W b x, W) :=
  ⟨fun _ => le_max_right _ _, rfl⟩

lemma objective_relu_le {m n : ℕ} (W : Fin n → Fin m → ℚ) (b : Fin n → ℚ)
    (x : Fin m → ℚ) {p : (Fin n → ℚ) × (Fin n → Fin m → ℚ)}
    (hp : Feasible W p) :
    objective b x (reluSol W b x, W) ≤ objective b x p := by
  obtain ⟨z, Wt⟩ := p
  obtain ⟨hz, hW⟩ := (feasible_iff W _).mp hp
  simp only at hz hW
  subst hW
  unfold objective reluSol
  exact Finset.sum_le_sum fun i _ => relu_term_le _ _ (hz i)

lemma optimal_eq_relu {m n : ℕ} (W : Fin n → Fin m → ℚ) (b : Fin n → ℚ)
    (x : Fin m → ℚ) {p : (Fin n → ℚ) × (Fin n → Fin m → ℚ)}
    (hp : Feasible W p)
    (heq : objective b x p = objective b x (reluSol W b x, W)) :
    p = (reluSol W b x, W) := by
  obtain ⟨z, Wt⟩ := p
  obtain ⟨hz, hW⟩ := (feasible_iff W _).mp hp
  simp only at hz hW
  subst hW
  have hle : ∀ i ∈ Finset.univ,
      (max (mv Wt x i + b i) 0 - (mv Wt x i + b i)) ^ 2 ≤
        (z i - (mv Wt x i + b i)) ^ 2 :=
    fun i _ => relu_term_le _ _ (hz i)
  have hsum :
      (∑ i, (max (mv Wt x i + b i) 0 - (mv Wt x i + b i)) ^ 2) =
        ∑ i, (z i - (mv Wt x i + b i)) ^ 2 := by
    have := heq.symm
    unfold objective reluSol at this
    simpa using this
  have hall := (Finset.sum_eq_sum_iff_of_le hle).mp hsum
  have hz_eq : z = reluSol Wt b x := by
    funext i
    exact relu_term_eq _ _ (hz i) (hall i (Finset.mem_univ i)).symm
  rw [hz_eq]

lemma isOptimal_iff {m n : ℕ} (W : Fin n → Fin m → ℚ) (b : Fin n → ℚ)
    (x : Fin m → ℚ) (p : (Fin n → ℚ) × (Fin n → Fin m → ℚ)) :
    IsOptimal W b x p ↔ p = (reluSol W b x, W) := by
  constructor
  · rintro ⟨hp, hopt⟩
    have h1 : objective b x p ≤ objective b x (reluSol W b x, W) :=
      hopt _ (feasible_relu W b x)
    have h2 : objective b x (reluSol W b x, W) ≤ objective b x p :=
      objective_relu_le W b x hp
    exact optimal_eq_relu W b x hp (le_antisymm h1 h2)
  · rintro rfl
    exact ⟨feasible_relu W b x, fun q hq => objective_relu_le W b x hq⟩

lemma stackRep_eq {α : Type} (B : ℕ) (a : α) (k : Fin B) :
    stackRep B a k = a := by
  have h : stackRep B a k ∈ replicateList B a := List.get_mem _ _ _
  rcases List.mem_map.mp h with ⟨_, _, hx⟩
  exact hx.symm

lemma call_rank1_err {m n : ℕ} (L : ReluLayer m n) (x : Fin m → ℚ) :
    L.call (.rank1 x) = .error (attrErr "layer") := by
  show (if "layer" ∈ initAttrs then
      Except.ok (TFTensor.rank1 (cvxpyLayerSolve L.W L.b x))
    else Except.error (attrErr "layer")) = Except.error (attrErr "layer")
  rw [if_neg (by decide)]

lemma call_rank2_ok {m n B : ℕ} (L : ReluLayer m n) (X : Fin B → Fin m → ℚ) :
    L.call (.rank2 B X) = .ok (.rank2 B (batchOutput L B X)) := by
  show (if "cvxpy_layer" ∈ initAttrs then
      Except.ok (TFTensor.rank2 B (batchOutput L B X))
    else Except.error (attrErr "cvxpy_layer")) =
      Except.ok (TFTensor.rank2 B (batchOutput L B X))
  rw [if_pos (by decide)]

lemma runLoop_length {σ : Type} (step : σ → σ × ℚ) :
    ∀ (k : ℕ) (s : σ), ((runLoop step k s).2).length = k := by
  intro k
  induction k with
  | zero => intro s; rfl
  | succ k ih =>
      intro s
      show ((runLoop step k (step s).1).2.length + 1) = k + 1
      rw [ih]

/-! ### Claims -/

/-- C1: for every weight matrix `W`, bias `b` and input `x`, the bound convex
program (minimize the sum of squares of `z - Wtilde x - b` subject to
`z ≥ 0` and `Wtilde = W`) has the unique optimum `(max (W x + b) 0, W)`, the
claimed elementwise ReLU; however the layer's unbatched call raises an
AttributeError (the rank-1 branch reads `self.layer`, never assigned by
`__init__`, which binds `self.cvxpy_layer`) instead of returning that
value. -/
theorem C1_unique_optimum_is_relu {m n : ℕ} (L : ReluLayer m n)
    (x : Fin m → ℚ) :
    (∀ p, IsOptimal L.W L.b x p ↔ p = (reluSol L.W L.b x, L.W)) ∧
      L.call (.rank1 x) = .error (attrErr "layer") :=
  ⟨fun p => isOptimal_iff L.W L.b x p, call_rank1_err L x⟩

/-- C2: shape contract.  On a batched input of shape `(B, m)` the call
returns a tensor of shape `(B, n)`; on an unbatched input of shape `(m,)`
the call does not return a tensor of shape `(n,)` but raises an
AttributeError, because `__init__` assigns `self.cvxpy_layer` while the
rank-1 branch reads `self.layer`. -/
theorem C2_shape_contract {m n : ℕ} (L : ReluLayer m n) :
    (∀ (B : ℕ) (X : Fin B → Fin m → ℚ),
        (TFTensor.rank2 B X : TFTensor m).shape = [B, m] ∧
          L.call (.rank2 B X) = .ok (.rank2 B (batchOutput L B X)) ∧
          (TFTensor.rank2 B (batchOutput L B X) : TFTensor n).shape =
            [B, n]) ∧
      ∀ x : Fin m → ℚ,
        (TFTensor.rank1 x : TFTensor m).shape = [m] ∧
          L.call (.rank1 x) = .error (attrErr "layer") :=
  ⟨fun _ X => ⟨rfl, call_rank2_ok L X, rfl⟩,
   fun x => ⟨rfl, call_rank1_err L x⟩⟩

/-- C3: batch invariance.  The batched call succeeds and its row `k` is the
unique optimum of the single-instance program at parameters `(W, b, X k)`,
that is, the single-instance computation applied to row `k` alone with the
same `W` and `b`; the literal unbatched call on row `k` raises an
AttributeError instead of producing that value (code bug). -/
theorem C3_batch_invariance {m n : ℕ} (L : ReluLayer m n) (B : ℕ)
    (X : Fin B → Fin m → ℚ) (k : Fin B) :
    L.call (.rank2 B X) = .ok (.rank2 B (batchOutput L B X)) ∧
      IsOptimal L.W L.b (X k) (batchOutput L B X k, L.W) ∧
      batchOutput L B X k = reluSol L.W L.b (X k) ∧
      L.call (.rank1 (X k)) = .error (attrErr "layer") := by
  have hrow : batchOutput L B X k = reluSol L.W L.b (X k) := by
    unfold batchOutput cvxpyLayerBatched cvxpyLayerSolve
    rw [stackRep_eq, stackRep_eq]
  exact ⟨call_rank2_ok L X,
    (isOptimal_iff L.W L.b (X k) _).mpr (by rw [hrow]),
    hrow, call_rank1_err L (X k)⟩

/-- C4 counterexample: with the global stream instantiated concretely, the
data matrix `X` generated by the notebook cell differs between seed 0 and
seed 1 — the synthetic data generation is governed by the seed installed by
`tf.random.set_seed`, contrary to the claim. -/
theorem C4_counterexample :
    ¬ ((runCell gTest 0).X = (runCell gTest 1).X ∧
        (runCell gTest 0).Y = (runCell gTest 1).Y) := by
  intro h
  have hX := h.1
  norm_num [runCell, drawVal, drawNext, setSeed, gTest] at hX

/-- C4 (amended): in the notebook cell every random draw, the synthetic data
`X` and `Y` included, reads the global stream at a position determined by the
installed seed: the seed set before model construction governs the model
initialization draws (positions 0 to 4) and equally the data-generation
draws (positions 5 and 6). -/
theorem C4_seed_governs_data (g : ℕ → ℕ → ℚ) (s : ℕ) :
    (runCell g s).W1 = g s 0 ∧ (runCell g s).b1 = g s 1 ∧
      (runCell g s).W2 = g s 2 ∧ (runCell g s).b2 = g s 3 ∧
      (runCell g s).denseK = g s 4 ∧
      (runCell g s).X = g s 5 ∧ (runCell g s).Y = g s 6 :=
  ⟨rfl, rfl, rfl, rfl, rfl, rfl, rfl⟩

/-- C5: the training loop runs exactly 25 iterations whatever the step
function does (no convergence check or early stopping can shorten
`range(25)`), collecting exactly one printed loss per iteration, and the
notebook's recorded output accordingly has 25 lines. -/
theorem C5_loop_prints_25 :
    (∀ (σ : Type) (step : σ → σ × ℚ) (s : σ),
        (printedLosses step s).length = numIters) ∧
      numIters = 25 ∧ recordedLosses.length = 25 :=
  ⟨fun _ step s => runLoop_length step numIters s, rfl, rfl⟩

/-- C6: the scalar loss of each iteration,
`(1 / X.shape[0]) * reduce_sum((Y - model(X))**2)` with `X.shape[0] = 300`,
equals the mean-squared error: the summed squared residual divided by the
number of data rows. -/
theorem C6_loss_is_mse :
    (∀ (N M : ℕ) (Y P : Fin N → Fin M → ℚ),
        lossValue N M Y P = meanSquaredError N M Y P) ∧
      numRows = 300 ∧
      ∀ (Y P : Fin numRows → Fin 1 → ℚ),
        lossValue numRows 1 Y P = reduceSumSq numRows 1 Y P / 300 := by
  have hgen : ∀ (N M : ℕ) (Y P : Fin N → Fin M → ℚ),
      lossValue N M Y P = meanSquaredError N M Y P := by
    intro N M Y P
    unfold lossValue meanSquaredError
    rw [one_div_mul_eq_div]
  refine ⟨hgen, rfl, fun Y P => ?_⟩
  rw [hgen numRows 1 Y P]
  unfold meanSquaredError
  norm_num [numRows]

/-- C7: on the batched path the single weight and bias are replicated exactly
`B` times before the adapter is invoked: each comprehension list has length
`B` and every stacked slice equals `self.W` (resp. `self.b`). -/
theorem C7_replication {m n : ℕ} (L : ReluLayer m n) (B : ℕ) :
    (replicateList B L.W).length = B ∧ (replicateList B L.b).length = B ∧
      (∀ k : Fin B, stackRep B L.W k = L.W) ∧
      ∀ k : Fin B, stackRep B L.b k = L.b :=
  ⟨by simp [replicateList], by simp [replicateList],
   fun k => stackRep_eq B L.W k, fun k => stackRep_eq B L.b k⟩

/-- C8: invoking the layer has no side effect on the layer state: with the
state threaded explicitly through `call`, both the rank-1 and the rank-2
branches return the weight, the bias, and the whole layer record unchanged,
together with the same result `call` returns. -/
theorem C8_call_no_side_effect {m n : ℕ} (L : ReluLayer m n)
    (t : TFTensor m) :
    (L.callSt t).1 = L ∧ (L.callSt t).1.W = L.W ∧ (L.callSt t).1.b = L.b ∧
      (L.callSt t).2 = L.call t := by
  cases t <;> exact ⟨rfl, rfl, rfl, rfl⟩

/-- C9: for every parameter values `(W, b, x)` the program is feasible — the
point `(max (W x + b) 0, W)` satisfies `z ≥ 0` and `Wtilde = W` — and the
objective of every point is bounded below by 0, so the adapter's
infeasible-or-unbounded error condition cannot arise for this template. -/
theorem C9_feasible_and_bounded {m n : ℕ} (W : Fin n → Fin m → ℚ)
    (b : Fin n → ℚ) (x : Fin m → ℚ) :
    Feasible W (reluSol W b x, W) ∧ ∀ p, 0 ≤ objective b x p :=
  ⟨feasible_relu W b x, fun _ => Finset.sum_nonneg fun _ _ => sq_nonneg _⟩

/-- C10: in the recorded end-to-end run the printed loss sequence is
non-increasing from the first iteration on (the recorded values are in fact
strictly decreasing), and the loss of the last (25th) iteration is lower
than the loss of the first. -/
theorem C10_recorded_losses_decrease :
    List.Chain' (fun a b : ℚ => b ≤ a) recordedLosses ∧
      recordedLosses.getD 24 1 < recordedLosses.getD 0 0 := by
  constructor
  · simp only [recordedLosses, List.chain'_cons, List.chain'_singleton,
      and_true]
    norm_num
  · have h0 : recordedLosses.getD 0 0 = 1.1182059444179566 := rfl
    have h24 : recordedLosses.getD 24 1 = 0.5749367021103264 := rfl
    rw [h0, h24]
    norm_num
